import Mathlib

/-!
Verification of the CallDoc transcription server
(`src/simulators/transcription/server.py`) against its specification.

The embedding below translates the server's pure logic into Lean:

* floats are modelled as rationals (`ℚ`); Python's `round(x, n)` is modelled
  by `rnd n` (round half up at `n` decimals — every property proved here is
  robust to the tie-breaking mode, and rounding error bounds are stated
  explicitly);
* the randomized draws of the mock generator (`random.uniform`,
  `random.randint`, `random.choice`) are inputs: a `MockRand` stream of
  drawn values, the chosen conversation and the chosen number of lines;
* `str.split()`, `str.lower()` and `str.endswith(...)` are re-implemented
  by structural recursion over the character list so that concrete
  instances evaluate inside the kernel;
* the job table mutations of `_process_job`, `create_job` and `shutdown`
  are modelled as events acting on a `JobInfo` record.  Mutations that the
  Python code performs with no intervening `await` are a single event,
  because under asyncio no reader can observe an intermediate state;
* the filesystem effects of the worker (temp dir, downloaded audio,
  converted wav) are modelled as the list of files present in the job's
  temporary directory at each stage.
-/

/-- Python `round(x, n)` on our rational model: round half up at `n`
decimal places.  (CPython rounds half to even on binary floats; every
theorem below either holds for any monotone rounding that is exact on
`n`-decimal values and within half an ulp, or is stated with an explicit
`1/10^n` tolerance.) -/
def rnd (n : ℕ) (q : ℚ) : ℚ := (⌊q * 10 ^ n + 1 / 2⌋ : ℚ) / 10 ^ n

/-- Arithmetic mean of a list of rationals, as Python's `sum(xs)/len(xs)`
(the code only ever applies it to non-empty lists). -/
def mean (l : List ℚ) : ℚ := l.sum / l.length

/-- Python `" ".join(xs)`. -/
def joinSpace : List String → String
  | [] => ""
  | [s] => s
  | s :: rest => s ++ " " ++ joinSpace rest

/-- Python `str.lower()` (ASCII case folding suffices for the paths and
extensions the server compares). -/
def strLower (s : String) : String := String.mk (s.data.map Char.toLower)

/-- List-level suffix test, by structural operations only. -/
def listEndsWith (l p : List Char) : Bool :=
  decide (p.length ≤ l.length) && decide (l.drop (l.length - p.length) = p)

/-- Python `str.endswith(p)`. -/
def strEndsWith (s p : String) : Bool := listEndsWith s.data p.data

/-- Helper for `pySplit`: accumulate a word (reversed) while scanning. -/
def splitWordsAux : List Char → List Char → List String
  | [], acc => if acc = [] then [] else [String.mk acc.reverse]
  | c :: cs, acc =>
      if c = ' ' then
        (if acc = [] then splitWordsAux cs []
         else String.mk acc.reverse :: splitWordsAux cs [])
      else splitWordsAux cs (c :: acc)

/-- Python `str.split()` with no argument: split on runs of whitespace and
drop empty pieces (the corpus lines only contain single spaces). -/
def pySplit (s : String) : List String := splitWordsAux s.data []

-- ---------------------------------------------------------------------------
-- Lemmas about `rnd`
-- ---------------------------------------------------------------------------

theorem pow_ten_pos (n : ℕ) : (0 : ℚ) < 10 ^ n := by positivity

theorem rnd_le (n : ℕ) (q : ℚ) : rnd n q ≤ q + 1 / (2 * 10 ^ n) := by
  unfold rnd
  rw [div_le_iff₀ (pow_ten_pos n)]
  calc (⌊q * 10 ^ n + 1 / 2⌋ : ℚ) ≤ q * 10 ^ n + 1 / 2 := Int.floor_le _
    _ = (q + 1 / (2 * 10 ^ n)) * 10 ^ n := by field_simp; ring

theorem lt_rnd (n : ℕ) (q : ℚ) : q - 1 / (2 * 10 ^ n) < rnd n q := by
  unfold rnd
  rw [lt_div_iff₀ (pow_ten_pos n)]
  have h := Int.lt_floor_add_one (q * 10 ^ n + 1 / 2)
  have : q * 10 ^ n - 1 / 2 < (⌊q * 10 ^ n + 1 / 2⌋ : ℚ) := by linarith
  calc (q - 1 / (2 * 10 ^ n)) * 10 ^ n = q * 10 ^ n - 1 / 2 := by field_simp; ring
    _ < _ := this

theorem rnd_mono (n : ℕ) {q r : ℚ} (h : q ≤ r) : rnd n q ≤ rnd n r := by
  unfold rnd
  have h2 : (⌊q * 10 ^ n + 1 / 2⌋ : ℚ) ≤ (⌊r * 10 ^ n + 1 / 2⌋ : ℚ) := by
    exact_mod_cast Int.floor_mono (by nlinarith [pow_ten_pos n])
  gcongr

theorem rnd_nonneg (n : ℕ) {q : ℚ} (h : 0 ≤ q) : 0 ≤ rnd n q := by
  unfold rnd
  apply div_nonneg _ (le_of_lt (pow_ten_pos n))
  have : (0 : ℤ) ≤ ⌊q * 10 ^ n + 1 / 2⌋ := by
    apply Int.le_floor.mpr
    push_cast
    nlinarith [pow_ten_pos n]
  exact_mod_cast this

/-- `rnd n` is the identity on exact `n`-decimal values `z / 10^n`. -/
theorem rnd_fix (n : ℕ) (z : ℤ) : rnd n ((z : ℚ) / 10 ^ n) = (z : ℚ) / 10 ^ n := by
  unfold rnd
  have hne : (10 : ℚ) ^ n ≠ 0 := ne_of_gt (pow_ten_pos n)
  have : (z : ℚ) / 10 ^ n * 10 ^ n + 1 / 2 = (z : ℚ) + 1 / 2 := by field_simp
  rw [this]
  have hfloor : ⌊(z : ℚ) + 1 / 2⌋ = z := by
    rw [Int.floor_eq_iff]
    constructor
    · linarith
    · linarith
  rw [hfloor]

theorem rnd_idem (n : ℕ) (q : ℚ) : rnd n (rnd n q) = rnd n q := by
  have : rnd n q = ((⌊q * 10 ^ n + 1 / 2⌋ : ℤ) : ℚ) / 10 ^ n := rfl
  rw [this, rnd_fix]

/-- `rnd n` keeps values inside an interval whose endpoints are exact
`n`-decimal values. -/
theorem rnd_mem_of_mem (n : ℕ) (za zb : ℤ) (q : ℚ)
    (hlo : (za : ℚ) / 10 ^ n ≤ q) (hhi : q ≤ (zb : ℚ) / 10 ^ n) :
    (za : ℚ) / 10 ^ n ≤ rnd n q ∧ rnd n q ≤ (zb : ℚ) / 10 ^ n := by
  constructor
  · calc (za : ℚ) / 10 ^ n = rnd n ((za : ℚ) / 10 ^ n) := (rnd_fix n za).symm
      _ ≤ rnd n q := rnd_mono n hlo
  · calc rnd n q ≤ rnd n ((zb : ℚ) / 10 ^ n) := rnd_mono n hhi
      _ = (zb : ℚ) / 10 ^ n := rnd_fix n zb

-- ---------------------------------------------------------------------------
-- Lemmas about `mean`
-- ---------------------------------------------------------------------------

theorem mean_mem {l : List ℚ} {a b : ℚ} (hne : l ≠ [])
    (h : ∀ x ∈ l, a ≤ x ∧ x ≤ b) : a ≤ mean l ∧ mean l ≤ b := by
  have hlen : 0 < (l.length : ℚ) := by
    have : 0 < l.length := List.length_pos.mpr hne
    exact_mod_cast this
  have hlo : (l.length : ℚ) * a ≤ l.sum := by
    have := List.card_nsmul_le_sum l a (fun x hx => (h x hx).1)
    simpa [nsmul_eq_mul] using this
  have hhi : l.sum ≤ (l.length : ℚ) * b := by
    have := List.sum_le_card_nsmul l b (fun x hx => (h x hx).2)
    simpa [nsmul_eq_mul] using this
  unfold mean
  constructor
  · rw [le_div_iff₀ hlen]; linarith
  · rw [div_le_iff₀ hlen]; linarith

-- ---------------------------------------------------------------------------
-- Data model (pydantic models `WordTimestamp`, `Segment`,
-- `TranscriptionResult`, lines 77-101 of the source)
-- ---------------------------------------------------------------------------

/-- Word-level timestamp entry (`WordTimestamp`, lines 77-81). -/
structure WordTimestamp where
  word : String
  start : ℚ
  «end» : ℚ
  confidence : ℚ
deriving DecidableEq, Repr, Inhabited

/-- Transcript segment (`Segment`, lines 84-89). -/
structure Segment where
  start : ℚ
  «end» : ℚ
  text : String
  confidence : ℚ
  words : List WordTimestamp
deriving DecidableEq, Repr, Inhabited

/-- Result record (`TranscriptionResult`, lines 92-101). -/
structure TranscriptionResult where
  recording_id : Option String
  job_id : Option String
  status : String
  transcript : String
  confidence : ℚ
  duration_seconds : ℚ
  language : String
  segments : List Segment
  processing_time_seconds : ℚ
deriving DecidableEq, Repr, Inhabited

/-- Python `segments[-1].end if segments else 0.0` (lines 282 and 445). -/
def lastEndQ (segs : List Segment) : ℚ :=
  match segs.getLast? with
  | some s => s.«end»
  | none => 0

-- ---------------------------------------------------------------------------
-- Mock transcript generator (`_generate_mock_transcript`, lines 230-294)
-- ---------------------------------------------------------------------------

/-- The scripted mock conversations (`MOCK_CONVERSATIONS`, lines 140-227),
embedded verbatim. -/
def MOCK_CONVERSATIONS : List (List String) :=
  [
   [
    "Thank you for calling Acme Support, my name is Sarah. How can I help you today?",
    "Hi Sarah, I'm having trouble with my account login. It keeps saying invalid password.",
    "I'm sorry to hear that. Let me pull up your account. Can I have your account number or email address?",
    "Sure, it's john dot smith at email dot com.",
    "Thank you, I can see your account here. It looks like your account was locked after three failed attempts.",
    "Oh, that makes sense. I was trying different passwords.",
    "No worries, it happens all the time. I've unlocked your account and sent a password reset link to your email.",
    "Great, I just got it. Let me try logging in now.",
    "Take your time.",
    "It worked! Thank you so much for your help, Sarah.",
    "You're welcome! Is there anything else I can help you with today?",
    "No, that's all. Have a great day!",
    "You too! Thank you for calling Acme Support. Goodbye."],
   [
    "Good afternoon, this is Mike with billing support. How may I assist you?",
    "Hi, I received a charge on my statement that I don't recognize. It's for forty-nine ninety-nine.",
    "I'd be happy to look into that for you. May I have your customer ID?",
    "It's C H seven four two one.",
    "Thank you. I can see the charge you're referring to. That's for the premium plan upgrade that was processed on January fifteenth.",
    "I didn't authorize any upgrade. I've been on the basic plan.",
    "I understand your concern. Let me check the activity log on your account.",
    "Please do.",
    "It appears the upgrade was triggered through the mobile app. Is it possible someone with access to your account made this change?",
    "Oh wait, my husband might have done that. Let me check with him.",
    "Of course, take your time.",
    "Yes, he confirmed he upgraded it. I'm sorry for the confusion.",
    "Not a problem at all! Would you like to keep the premium plan or revert to basic?",
    "We'll keep it actually. Thank you for your patience, Mike.",
    "Absolutely! Glad we could sort that out. Have a wonderful day!"],
   [
    "Hello, you've reached technical support. This is Jennifer. What seems to be the issue?",
    "My internet has been really slow for the past two days. I'm barely getting five megabits.",
    "I'm sorry about that. Let me run some diagnostics on your line. Can I get your service address?",
    "It's four twenty-one Oak Street, apartment B.",
    "Thank you. I'm seeing some signal issues on your line. There was maintenance in your area yesterday that may have affected your connection.",
    "So is it something on your end?",
    "It appears so. I'm going to reset your connection from here and that should resolve the speed issue.",
    "Okay, how long will that take?",
    "Just about two minutes. Your modem will restart automatically. You'll see the lights flash and then come back solid.",
    "Alright, I see it restarting now.",
    "Perfect. Once all the lights are solid green, try running a speed test.",
    "It's back up and I'm getting ninety-five megabits now. That's much better!",
    "Excellent! That's right where it should be. I'll make a note on your account about this issue.",
    "Thank you so much, Jennifer. You've been very helpful.",
    "Happy to help! If you experience any more issues, don't hesitate to call back. Have a great evening!"],
   [
    "Thank you for calling reservations, this is David speaking.",
    "Hi, I'd like to make a reservation for this Saturday.",
    "Of course! How many guests will be dining with us?",
    "There will be four of us.",
    "And what time would you prefer?",
    "Seven thirty if possible.",
    "Let me check availability. We do have a table for four at seven thirty. Would you like indoor or patio seating?",
    "Indoor, please. Do you have anything near the window?",
    "I can put you at a window table. It has a lovely view of the garden.",
    "That sounds perfect. The reservation will be under Thompson.",
    "Wonderful, Mr. Thompson. Table for four, Saturday at seven thirty, window seating. Any dietary restrictions or special occasions I should note?",
    "Actually, it's my wife's birthday. Could you arrange a small cake?",
    "Absolutely! We'd be happy to. We have chocolate, vanilla, or red velvet. Any preference?",
    "Chocolate would be great.",
    "Perfect. I've noted everything. We'll have a complimentary birthday dessert ready. See you Saturday, Mr. Thompson!",
    "Thank you, David. We're looking forward to it!"],
   [
    "Claims department, this is Rachel. How can I help?",
    "I need to file a claim. I had a fender bender this morning.",
    "I'm sorry to hear that. Are you okay? Was anyone injured?",
    "Everyone is fine, thankfully. Just some damage to the bumper.",
    "Good to hear everyone's safe. I'll help you get this claim started. Can I have your policy number?",
    "It's P O L dash eight eight three two one seven.",
    "Thank you. I have your policy pulled up. Can you walk me through what happened?",
    "I was stopped at a red light on Main Street and the car behind me didn't stop in time.",
    "Understood. Did you get the other driver's information?",
    "Yes, I have their insurance details and we both took photos.",
    "Perfect, that's exactly what we need. I'm going to assign you a claim number. It's C L M dash two zero two five dash zero four seven.",
    "Got it, thank you.",
    "An adjuster will contact you within twenty-four hours to schedule an inspection. In the meantime, you're welcome to get a repair estimate from any of our approved shops.",
    "Is Smith Auto Body on the approved list?",
    "Let me check. Yes, they are! They're one of our preferred partners actually.",
    "Great, I'll take it there. Thanks for your help, Rachel.",
    "You're welcome. I'm sorry about the accident, but we'll get you taken care of. Stay safe!"]]

/-- One stream of the values drawn by `_generate_mock_transcript`'s calls to
`random.uniform`: `dur k`, `gap k` and `wconf k` are the duration, inter-word
gap and confidence drawn for the `k`-th word overall (lines 247-251), and
`pause i` is the inter-speaker pause drawn after the `i`-th line (line 265).
The drawn values are inputs of the model; the distribution's ranges become
hypotheses (`ValidRand`). -/
structure MockRand where
  dur : ℕ → ℚ
  gap : ℕ → ℚ
  wconf : ℕ → ℚ
  pause : ℕ → ℚ

/-- The ranges from which `_generate_mock_transcript` draws its random
values: duration in [0.15, 0.45], gap in [0.02, 0.10], word confidence in
[0.85, 0.99], inter-speaker pause in [0.3, 1.2]. -/
def ValidRand (r : MockRand) : Prop :=
  (∀ k, 15 / 100 ≤ r.dur k ∧ r.dur k ≤ 45 / 100) ∧
  (∀ k, 2 / 100 ≤ r.gap k ∧ r.gap k ≤ 10 / 100) ∧
  (∀ k, 85 / 100 ≤ r.wconf k ∧ r.wconf k ≤ 99 / 100) ∧
  (∀ i, 3 / 10 ≤ r.pause i ∧ r.pause i ≤ 12 / 10)

/-- Inner loop of `_generate_mock_transcript` (lines 246-261): walk the words
of one line, advancing the running clock `t`; `k` counts words processed so
far (indexing the random stream).  Returns the word timestamps, the clock
after the last word's gap (the value `current_time` has at line 263, i.e.
the segment's end before rounding), and the next word index. -/
def mockWords (r : MockRand) : List String → ℚ → ℕ → List WordTimestamp × ℚ × ℕ
  | [], t, k => ([], t, k)
  | w :: ws, t, k =>
      let word_end := t + r.dur k
      let rest := mockWords r ws (word_end + r.gap k) (k + 1)
      (⟨w, rnd 3 t, rnd 3 word_end, rnd 4 (r.wconf k)⟩ :: rest.1, rest.2)

/-- Outer loop of `_generate_mock_transcript` (lines 241-279): one `Segment`
per line.  The segment's `start` is the clock at the line's start, its `end`
is the clock after the line's last word (including that word's trailing
gap, line 263), its text is the whole line (line 275), its confidence the
rounded mean of its words' confidences (lines 267-269).  After each line the
inter-speaker pause advances the clock (line 265). -/
def mockSegs (r : MockRand) : List String → ℚ → ℕ → ℕ → List Segment
  | [], _, _, _ => []
  | line :: rest, t, k, i =>
      let res := mockWords r (pySplit line) t k
      let seg : Segment :=
        ⟨rnd 3 t, rnd 3 res.2.1, line,
         rnd 4 (mean (res.1.map WordTimestamp.confidence)), res.1⟩
      seg :: mockSegs r rest (res.2.1 + r.pause i) res.2.2 (i + 1)

/-- `_generate_mock_transcript` (lines 230-294), with the random draws made
explicit: `conversation` is the list `random.choice` picked and `num_lines`
the value `random.randint(4, len(conversation))` returned. -/
def generateMockTranscript (r : MockRand) (conversation : List String)
    (num_lines : ℕ) : TranscriptionResult :=
  let lines := conversation.take num_lines
  let segments := mockSegs r lines 0 0 0
  { recording_id := none
    job_id := none
    status := "completed"
    transcript := joinSpace (segments.map Segment.text)
    confidence := rnd 4 (mean (segments.map Segment.confidence))
    duration_seconds := rnd 3 (lastEndQ segments)
    language := "en"
    segments := segments
    processing_time_seconds := 0 }

-- ---------------------------------------------------------------------------
-- External-engine (NeMo) transcription path
-- (`_convert_opus_to_wav`, lines 314-322; `_transcribe_with_nemo`,
-- lines 325-454)
-- ---------------------------------------------------------------------------

/-- One entry of the engine hypothesis' word-timing sequence
(`words_data.words`, lines 368-376): the raw word string and its raw
(unrounded) start, end and confidence as read from the engine. -/
structure WordInfo where
  word : String
  start : ℚ
  «end» : ℚ
  confidence : ℚ
deriving DecidableEq, Repr, Inhabited

/-- The engine hypothesis as far as the server reads it: the full text
(line 357) and the word-timing sequence (empty when the engine yields no
word-level timing, collapsing the `timestep is None` / `words` falsy
guards of lines 360-362). -/
structure NemoHyp where
  text : String
  words : List WordInfo
deriving DecidableEq, Repr, Inhabited

/-- Line 366: `sentence_end_chars = {".", "?", "!"}`, and line 392:
`any(word_str.endswith(c) for c in sentence_end_chars)`. -/
def sentence_end (w : String) : Bool :=
  strEndsWith w "." || strEndsWith w "?" || strEndsWith w "!"

/-- The `WordTimestamp` appended at lines 381-388: the raw values rounded. -/
def mkWT (w : WordInfo) : WordTimestamp :=
  ⟨w.word, rnd 3 w.start, rnd 3 w.«end», rnd 4 w.confidence⟩

/-- Segment-splitting loop of `_transcribe_with_nemo` (lines 363-426).
`cur` is `current_segment_words`, `parts` is `segment_text_parts`,
`segment_start` the running raw segment start.  A segment closes when the
word just appended ends a sentence or the running segment has reached 15
words (lines 391-410); leftover words become a final segment whose end is
the (re-rounded) end of its last stored word (lines 412-426). -/
def nemoSegLoop : List WordInfo → List WordTimestamp → List String → ℚ → List Segment
  | [], cur, parts, segment_start =>
      match cur with
      | [] => []
      | _ :: _ =>
          [⟨rnd 3 segment_start, rnd 3 ((cur.getLastD default).«end»), joinSpace parts,
            rnd 4 (mean (cur.map WordTimestamp.confidence)), cur⟩]
  | w :: ws, cur, parts, segment_start =>
      let segment_start := if cur.isEmpty then w.start else segment_start
      let cur := cur ++ [mkWT w]
      let parts := parts ++ [w.word]
      if sentence_end w.word || decide (15 ≤ cur.length) then
        ⟨rnd 3 segment_start, rnd 3 w.«end», joinSpace parts,
         rnd 4 (mean (cur.map WordTimestamp.confidence)), cur⟩ ::
          nemoSegLoop ws [] [] segment_start
      else
        nemoSegLoop ws cur parts segment_start

/-- The segments built from the engine's word timings (lines 360-426). -/
def nemoSegments (ws : List WordInfo) : List Segment := nemoSegLoop ws [] [] 0

/-- Line 332: `audio_path.lower().endswith((".opus", ".ogg", ".webm"))`. -/
def needsConvert (audio_path : String) : Bool :=
  strEndsWith (strLower audio_path) ".opus" ||
  strEndsWith (strLower audio_path) ".ogg" ||
  strEndsWith (strLower audio_path) ".webm"

/-- Helper for `rsplitBase`: drop the last dot and everything after it,
or return the list unchanged when it has no dot. -/
def dropAfterLastDot (l : List Char) : List Char :=
  match l.reverse.dropWhile (fun c => c ≠ '.') with
  | [] => l
  | _ :: rest => rest.reverse

/-- Python `input_path.rsplit(".", 1)[0]`: everything before the last dot
(the whole string when there is no dot). -/
def rsplitBase (s : String) : String := String.mk (dropAfterLastDot s.data)

/-- `_convert_opus_to_wav` (lines 314-322) as it affects the filesystem and
the path handed to the engine: the converted file sits next to the input,
named by replacing the extension with `.wav` (line 319). -/
def convertOpusToWav (input_path : String) : String := rsplitBase input_path ++ ".wav"

/-- The path `_transcribe_with_nemo` actually hands to the engine: the
converted wav when lines 331-334 convert, the original path otherwise. -/
def enginePathOf (audio_path : String) : String :=
  if needsConvert audio_path then convertOpusToWav audio_path else audio_path

/-- Assembly of the result from an engine hypothesis (lines 350-454):
build segments from the word timings; if that leaves no segments but the
engine produced text, emit the single degraded `[0,0]` segment
(lines 428-438); overall confidence is the rounded mean of segment
confidences when segments exist (lines 440-443), else the initial 0.0;
duration is the last segment's end (line 445). -/
def nemoResult (h : NemoHyp) : TranscriptionResult :=
  let transcript_text := h.text
  let segments := nemoSegments h.words
  let segments :=
    if segments = [] ∧ transcript_text ≠ "" then
      [⟨0, 0, transcript_text, 9 / 10, []⟩]
    else segments
  let overall_confidence :=
    if segments = [] then 0 else rnd 4 (mean (segments.map Segment.confidence))
  { recording_id := none
    job_id := none
    status := "completed"
    transcript := transcript_text
    confidence := overall_confidence
    duration_seconds := rnd 3 (lastEndQ segments)
    language := "en"
    segments := segments
    processing_time_seconds := 0 }

/-- `_transcribe_with_nemo` (lines 325-454): convert the audio when needed,
invoke the engine on the (possibly converted) path, and either fail as the
code raises `RuntimeError("Empty transcription result from NeMo")`
(lines 344-349) or assemble the result.  The opaque engine is a parameter
mapping the invoked path to its hypothesis, `none` standing for an
empty/missing result list. -/
def transcribeWithNemo (engine : String → Option NemoHyp) (audio_path : String) :
    Except String TranscriptionResult :=
  match engine (enginePathOf audio_path) with
  | none => .error "Empty transcription result from NeMo"
  | some h => .ok (nemoResult h)

-- ---------------------------------------------------------------------------
-- Job store and worker state machine
-- (`JobStatus`/`JobInfo`, lines 70-119; `create_job`, lines 685-722;
-- `_process_job`, lines 498-578; `shutdown`, lines 749-757)
-- ---------------------------------------------------------------------------

/-- `JobStatus` (lines 70-74). -/
inductive JobStatus where
  | pending
  | processing
  | completed
  | failed
deriving DecidableEq, Repr

/-- `JobInfo` (lines 111-119).  Timestamps are abstract `ℕ` instants. -/
structure JobInfo where
  job_id : String
  recording_id : String
  status : JobStatus
  progress : ℚ
  created_at : ℕ
  completed_at : Option ℕ
  error : Option String
  result : Option TranscriptionResult
deriving DecidableEq, Repr

/-- The record `create_job` inserts (lines 696-703): pending, progress 0. -/
def newJob (job_id recording_id : String) (now : ℕ) : JobInfo :=
  { job_id := job_id
    recording_id := recording_id
    status := .pending
    progress := 0
    created_at := now
    completed_at := none
    error := none
    result := none }

/-- The `shutdown` handler's per-job action (lines 753-757): a pending or
processing job is forced to failed with the fixed error string and a
completion timestamp; a terminal job is left untouched. -/
def shutdownJob (t : ℕ) (j : JobInfo) : JobInfo :=
  if j.status = .pending ∨ j.status = .processing then
    { j with status := .failed, error := some "Server shutting down",
             completed_at := some t }
  else j

/-- The whole `shutdown` handler over the job table (lines 753-757). -/
def shutdownAll (t : ℕ) (jobs : List JobInfo) : List JobInfo :=
  jobs.map (shutdownJob t)

/-- Observable mutations of one job's record.  `_process_job` runs on the
asyncio loop, so the assignments it performs between two `await`
suspension points are one atomic event; a poll of `get_job` can only
observe the states between events.

* `startProcessing` — lines 504-512: status := processing, progress 0.1
  then 0.2, all before the first suspension (the download);
* `downloaded`     — line 537: progress := 0.4, between the download and
  the transcription `await`;
* `complete`       — lines 548-552: progress 0.9, result, status
  completed, completed_at, progress 1.0, with no `await` in between;
* `fail`           — lines 566-568: status failed, error := str(exc),
  completed_at, with no `await` in between;
* `shutdownEvt`    — lines 753-757, the `shutdown` handler (it contains
  no `await`, and the model ends every execution at process teardown). -/
inductive WorkerEvent where
  | startProcessing
  | downloaded
  | complete (res : TranscriptionResult) (t : ℕ)
  | fail (msg : String) (t : ℕ)
  | shutdownEvt (t : ℕ)
deriving DecidableEq, Repr

/-- Effect of one event on the job record. -/
def applyEvent (j : JobInfo) : WorkerEvent → JobInfo
  | .startProcessing => { j with status := .processing, progress := 2 / 10 }
  | .downloaded => { j with progress := 4 / 10 }
  | .complete res t =>
      { j with progress := 1, result := some res, status := .completed,
               completed_at := some t }
  | .fail msg t =>
      { j with status := .failed, error := some msg, completed_at := some t }
  | .shutdownEvt t => shutdownJob t j

/-- Every event sequence the worker can produce for one job, complete or
truncated (the job may still be mid-flight when it is observed): nothing
yet; started; failed at download or metadata lookup; downloaded; failed at
transcription; completed.  The failure message and the completion instants
are arbitrary. -/
def workerTraces (res : TranscriptionResult) (msg : String) (t : ℕ) :
    List (List WorkerEvent) :=
  [ [],
    [.startProcessing],
    [.startProcessing, .fail msg t],
    [.startProcessing, .downloaded],
    [.startProcessing, .downloaded, .fail msg t],
    [.startProcessing, .downloaded, .complete res t] ]

/-- Every observable execution for one job: a worker trace, optionally
terminated by the shutdown handler (after which the process exits, so no
further events occur). -/
def jobExecutions (res : TranscriptionResult) (msg : String) (t tShut : ℕ) :
    List (List WorkerEvent) :=
  workerTraces res msg t ++
    (workerTraces res msg t).map (fun tr => tr ++ [.shutdownEvt tShut])

/-- The sequence of observable states along an event list, starting from
(and including) the initial state. -/
def runStates (j : JobInfo) : List WorkerEvent → List JobInfo
  | [] => [j]
  | e :: es => j :: runStates (applyEvent j e) es

/-- Whether a status is terminal (`completed` or `failed`). -/
def isTerminal (s : JobStatus) : Bool := s = .completed || s = .failed

/-- What a later observation `b` must satisfy relative to an earlier
observation `a` of the same job: progress never decreases, and once the
job is terminal its status, result and error are frozen. -/
def obsOk (a b : JobInfo) : Prop :=
  a.progress ≤ b.progress ∧
  (isTerminal a.status = true →
    b.status = a.status ∧ b.result = a.result ∧ b.error = a.error)

-- ---------------------------------------------------------------------------
-- Worker filesystem model (`_process_job`, lines 520-535 and 570-578;
-- `_convert_opus_to_wav`, lines 314-322)
-- ---------------------------------------------------------------------------

/-- The allowed upload extensions of the sync endpoint (line 640); async
job URLs carry the same formats. -/
def allowedExtensions : List String :=
  [".wav", ".opus", ".ogg", ".webm", ".mp3", ".flac"]

/-- Line 525: the downloaded file is named `audio{ext}` inside the temp
directory. -/
def audioName (ext : String) : String := "audio" ++ ext

/-- Line 319: the converted file replaces the extension with `.wav`. -/
def wavName (ext : String) : String := convertOpusToWav (audioName ext)

/-- How far the pipeline got, as it determines which files exist when the
`finally` block runs: a download failure leaves no audio file (the HTTP
error is raised before the file is opened); an engine-load failure
(lines 327-329) happens before the conversion; any later failure — and
success — happens after it. -/
inductive PipelineOutcome where
  | downloadFail
  | engineLoadFail
  | engineFail
  | success
deriving DecidableEq, Repr

/-- Whether the pipeline reached the conversion check of lines 331-334. -/
def reachesConversion : PipelineOutcome → Bool
  | .downloadFail => false
  | .engineLoadFail => false
  | .engineFail => true
  | .success => true

/-- The files inside the job's temp directory when the `finally` block of
lines 570-578 starts: the downloaded `audio{ext}`, plus the converted wav
when the external engine ran on a convertible format (`useNemo` is
line 471's `TRANSCRIPTION_MODE == "nemo" and NEMO_AVAILABLE`; the mock
path never converts). -/
def pipelineFiles (useNemo : Bool) (ext : String) (outcome : PipelineOutcome) :
    List String :=
  match outcome with
  | .downloadFail => []
  | _ =>
      if useNemo && reachesConversion outcome && needsConvert (audioName ext) then
        [audioName ext, wavName ext]
      else [audioName ext]

/-- The `finally` block (lines 570-578): unlink `audio_path` if it exists,
then `os.rmdir(tmp_dir)`, which succeeds only when the directory is empty
(the `OSError` of a non-empty directory is swallowed, line 577).  Returns
the files left behind and whether the directory itself was removed. -/
def workerCleanup (useNemo : Bool) (ext : String) (outcome : PipelineOutcome) :
    List String × Bool :=
  let files := pipelineFiles useNemo ext outcome
  let remaining := files.filter (fun f => f ≠ audioName ext)
  (remaining, remaining.isEmpty)

-- ---------------------------------------------------------------------------
-- Small list helpers
-- ---------------------------------------------------------------------------

theorem headD_mem {α} [Inhabited α] {l : List α} (h : l ≠ []) :
    l.headD default ∈ l := by
  cases l with
  | nil => exact absurd rfl h
  | cons a l => exact List.mem_cons_self a l

theorem getLastD_eq_of_ne_nil {α} [Inhabited α] {l : List α} (d : α) (h : l ≠ []) :
    l.getLastD d = l.getLastD default := by
  rw [List.getLastD_eq_getLast?, List.getLastD_eq_getLast?]
  cases hl : l.getLast? with
  | none => exact absurd (List.getLast?_eq_none_iff.mp hl) h
  | some a => rfl

theorem getLastD_mem {α} [Inhabited α] {l : List α} (h : l ≠ []) :
    l.getLastD default ∈ l := by
  rw [List.getLastD_eq_getLast?, List.getLast?_eq_getLast_of_ne_nil h]
  simp

theorem getLastD_concat' {α} [Inhabited α] (l : List α) (a : α) :
    (l ++ [a]).getLastD default = a := by
  rw [List.getLastD_eq_getLast?, List.getLast?_concat]
  rfl

theorem headD_append_of_ne_nil {α} [Inhabited α] {l : List α} (l' : List α)
    (h : l ≠ []) : (l ++ l').headD default = l.headD default := by
  cases l with
  | nil => exact absurd rfl h
  | cons a l => rfl

theorem getD_mem_of_lt {α} [Inhabited α] {l : List α} {j : ℕ}
    (h : j < l.length) : l.getD j default ∈ l := by
  rw [List.getD_eq_getElem l default h]
  exact List.getElem_mem h

theorem getD_append_lt {α} [Inhabited α] {l : List α} (l' : List α) {j : ℕ}
    (h : j < l.length) : (l ++ l').getD j default = l.getD j default := by
  rw [List.getD_eq_getElem l default h,
      List.getD_eq_getElem (l ++ l') default (by simp; omega)]
  exact List.getElem_append_left h

-- ---------------------------------------------------------------------------
-- Facts about the corpus
-- ---------------------------------------------------------------------------

set_option maxRecDepth 100000 in
/-- Every scripted conversation has at least 4 lines (so
`random.randint(4, len(conversation))` is well-formed), and every line is a
non-empty string that splits into at least one word. -/
theorem corpus_facts :
    ∀ conv ∈ MOCK_CONVERSATIONS, 4 ≤ conv.length ∧
      ∀ line ∈ conv, 0 < line.length ∧ pySplit line ≠ [] := by decide

-- ---------------------------------------------------------------------------
-- Lemmas about the mock generator
-- ---------------------------------------------------------------------------

theorem mockWords_length (r : MockRand) :
    ∀ (ws : List String) (t : ℚ) (k : ℕ), (mockWords r ws t k).1.length = ws.length := by
  intro ws
  induction ws with
  | nil => intro t k; rfl
  | cons w ws ih => intro t k; simp [mockWords, ih]

theorem mockWords_ne_nil (r : MockRand) {ws : List String} (t : ℚ) (k : ℕ)
    (h : ws ≠ []) : (mockWords r ws t k).1 ≠ [] := by
  intro hcon
  apply h
  have := mockWords_length r ws t k
  rw [hcon] at this
  exact List.length_eq_zero.mp this.symm

theorem mockWords_head (r : MockRand) (w : String) (ws : List String)
    (t : ℚ) (k : ℕ) :
    ((mockWords r (w :: ws) t k).1.headD default).start = rnd 3 t := rfl

theorem mockWords_clock_mono (r : MockRand) (hr : ValidRand r) :
    ∀ (ws : List String) (t : ℚ) (k : ℕ), t ≤ (mockWords r ws t k).2.1 := by
  intro ws
  induction ws with
  | nil => intro t k; exact le_refl t
  | cons w ws ih =>
      intro t k
      have hd := (hr.1 k).1
      have hg := (hr.2.1 k).1
      calc t ≤ t + r.dur k + r.gap k := by linarith
        _ ≤ (mockWords r ws (t + r.dur k + r.gap k) (k + 1)).2.1 := ih _ _
        _ = (mockWords r (w :: ws) t k).2.1 := rfl

/-- The last stored word end of a non-empty line sits at least 0.019 below
the rounded segment end: the trailing inter-word gap (≥ 0.02) survives the
two roundings (each within 0.0005). -/
theorem mockWords_last_end (r : MockRand) (hr : ValidRand r) :
    ∀ (ws : List String) (t : ℚ) (k : ℕ), ws ≠ [] →
      ((mockWords r ws t k).1.getLastD default).«end» + 19 / 1000 ≤
        rnd 3 ((mockWords r ws t k).2.1) := by
  intro ws
  induction ws with
  | nil => intro t k h; exact absurd rfl h
  | cons w ws ih =>
      intro t k _
      cases ws with
      | nil =>
          have h1 := rnd_le 3 (t + r.dur k)
          have h2 := lt_rnd 3 (t + r.dur k + r.gap k)
          have hg := (hr.2.1 k).1
          simp only [mockWords]
          norm_num
          linarith
      | cons w' ws' =>
          have hne := mockWords_ne_nil r (t + r.dur k + r.gap k) (k + 1)
            (List.cons_ne_nil w' ws')
          have step1 : (mockWords r (w :: w' :: ws') t k).1 =
              ⟨w, rnd 3 t, rnd 3 (t + r.dur k), rnd 4 (r.wconf k)⟩ ::
                (mockWords r (w' :: ws') (t + r.dur k + r.gap k) (k + 1)).1 := rfl
          have step2 : (mockWords r (w :: w' :: ws') t k).2 =
              (mockWords r (w' :: ws') (t + r.dur k + r.gap k) (k + 1)).2 := rfl
          rw [step1, step2, List.getLastD_cons, getLastD_eq_of_ne_nil _ hne]
          exact ih (t + r.dur k + r.gap k) (k + 1) (List.cons_ne_nil w' ws')

/-- A confidence drawn in [0.85, 0.99] stays in that interval after 4-decimal
rounding (the endpoints are exact 4-decimal values). -/
theorem rnd4_conf_mem {c : ℚ} (h1 : 85 / 100 ≤ c) (h2 : c ≤ 99 / 100) :
    85 / 100 ≤ rnd 4 c ∧ rnd 4 c ≤ 99 / 100 := by
  have e1 : ((8500 : ℤ) : ℚ) / 10 ^ 4 = 85 / 100 := by norm_num
  have e2 : ((9900 : ℤ) : ℚ) / 10 ^ 4 = 99 / 100 := by norm_num
  have h := rnd_mem_of_mem 4 8500 9900 c (by rw [e1]; exact h1) (by rw [e2]; exact h2)
  rw [e1, e2] at h
  exact h

/-- Every word emitted by the inner loop satisfies the timing/confidence
bounds of the mock generator (C10's word-level part). -/
theorem mockWords_word_props (r : MockRand) (hr : ValidRand r) :
    ∀ (ws : List String) (t : ℚ) (k : ℕ), 0 ≤ t →
      ∀ wt ∈ (mockWords r ws t k).1,
        0 ≤ wt.start ∧ wt.start < wt.«end» ∧
        149 / 1000 ≤ wt.«end» - wt.start ∧ wt.«end» - wt.start ≤ 451 / 1000 ∧
        85 / 100 ≤ wt.confidence ∧ wt.confidence ≤ 99 / 100 := by
  intro ws
  induction ws with
  | nil => intro t k ht wt hwt; simp [mockWords] at hwt
  | cons w ws ih =>
      intro t k ht wt hwt
      have hd := hr.1 k
      have hg := hr.2.1 k
      rw [show (mockWords r (w :: ws) t k).1 =
            ⟨w, rnd 3 t, rnd 3 (t + r.dur k), rnd 4 (r.wconf k)⟩ ::
              (mockWords r ws (t + r.dur k + r.gap k) (k + 1)).1 from rfl] at hwt
      rcases List.mem_cons.mp hwt with heq | hmem
      · subst heq
        have hs1 := rnd_le 3 t
        have hs2 := lt_rnd 3 t
        have he1 := rnd_le 3 (t + r.dur k)
        have he2 := lt_rnd 3 (t + r.dur k)
        have hnum : (1 : ℚ) / (2 * 10 ^ 3) = 1 / 2000 := by norm_num
        rw [hnum] at hs1 hs2 he1 he2
        have hconf := rnd4_conf_mem (hr.2.2.1 k).1 (hr.2.2.1 k).2
        refine ⟨rnd_nonneg 3 ht, ?_, ?_, ?_, hconf.1, hconf.2⟩
        · show rnd 3 t < rnd 3 (t + r.dur k)
          linarith [hd.1]
        · show 149 / 1000 ≤ rnd 3 (t + r.dur k) - rnd 3 t
          linarith [hd.1]
        · show rnd 3 (t + r.dur k) - rnd 3 t ≤ 451 / 1000
          linarith [hd.2]
      · exact ih (t + r.dur k + r.gap k) (k + 1) (by linarith [hd.1, hg.1]) wt hmem

theorem mockSegs_cons (r : MockRand) (line : String) (rest : List String)
    (t : ℚ) (k i : ℕ) :
    mockSegs r (line :: rest) t k i =
      ⟨rnd 3 t, rnd 3 (mockWords r (pySplit line) t k).2.1, line,
       rnd 4 (mean ((mockWords r (pySplit line) t k).1.map WordTimestamp.confidence)),
       (mockWords r (pySplit line) t k).1⟩ ::
        mockSegs r rest ((mockWords r (pySplit line) t k).2.1 + r.pause i)
          (mockWords r (pySplit line) t k).2.2 (i + 1) := rfl

theorem mockSegs_length (r : MockRand) :
    ∀ (ls : List String) (t : ℚ) (k i : ℕ),
      (mockSegs r ls t k i).length = ls.length := by
  intro ls
  induction ls with
  | nil => intro t k i; rfl
  | cons line rest ih => intro t k i; rw [mockSegs_cons]; simp [ih]

theorem mockSegs_texts (r : MockRand) :
    ∀ (ls : List String) (t : ℚ) (k i : ℕ),
      (mockSegs r ls t k i).map Segment.text = ls := by
  intro ls
  induction ls with
  | nil => intro t k i; rfl
  | cons line rest ih => intro t k i; rw [mockSegs_cons]; simp [ih]

/-- Per-segment properties of the mock generator: the segment starts at its
first word's start; its end sits strictly (by at least 0.019) above its
last word's end, because the trailing inter-word gap is included; all its
words satisfy the timing/confidence bounds; and its confidence, the
rounded mean of its words' confidences, stays in [0.85, 0.99]. -/
theorem mockSegs_seg_props (r : MockRand) (hr : ValidRand r) :
    ∀ (ls : List String) (t : ℚ) (k i : ℕ), 0 ≤ t →
      ∀ s ∈ mockSegs r ls t k i,
        (s.words ≠ [] →
          s.start = (s.words.headD default).start ∧
          (s.words.getLastD default).«end» + 19 / 1000 ≤ s.«end») ∧
        (∀ wt ∈ s.words,
          0 ≤ wt.start ∧ wt.start < wt.«end» ∧
          149 / 1000 ≤ wt.«end» - wt.start ∧ wt.«end» - wt.start ≤ 451 / 1000 ∧
          85 / 100 ≤ wt.confidence ∧ wt.confidence ≤ 99 / 100) ∧
        (s.words ≠ [] → 85 / 100 ≤ s.confidence ∧ s.confidence ≤ 99 / 100) := by
  intro ls
  induction ls with
  | nil => intro t k i ht s hs; simp [mockSegs] at hs
  | cons line rest ih =>
      intro t k i ht s hs
      rw [mockSegs_cons] at hs
      rcases List.mem_cons.mp hs with heq | hmem
      · subst heq
        constructor
        · intro hw
          have hsplit : pySplit line ≠ [] := by
            intro hnil
            apply hw
            show (mockWords r (pySplit line) t k).1 = []
            rw [hnil]; rfl
          constructor
          · cases hps : pySplit line with
            | nil => exact absurd hps hsplit
            | cons w ws =>
                show rnd 3 t = ((mockWords r (w :: ws) t k).1.headD default).start
                exact (mockWords_head r w ws t k).symm
          · show _ + 19 / 1000 ≤ rnd 3 (mockWords r (pySplit line) t k).2.1
            exact mockWords_last_end r hr (pySplit line) t k hsplit
        constructor
        · intro wt hwt
          exact mockWords_word_props r hr (pySplit line) t k ht wt hwt
        · intro hw
          have hmapne : (mockWords r (pySplit line) t k).1.map WordTimestamp.confidence ≠ [] := by
            simpa using hw
          have hbounds : ∀ x ∈ (mockWords r (pySplit line) t k).1.map WordTimestamp.confidence,
              85 / 100 ≤ x ∧ x ≤ 99 / 100 := by
            intro x hx
            rcases List.mem_map.mp hx with ⟨wt, hwt, hx'⟩
            have := mockWords_word_props r hr (pySplit line) t k ht wt hwt
            rw [← hx']
            exact ⟨this.2.2.2.2.1, this.2.2.2.2.2⟩
          have hmean := mean_mem hmapne hbounds
          exact rnd4_conf_mem hmean.1 hmean.2
      · have hE : t ≤ (mockWords r (pySplit line) t k).2.1 :=
          mockWords_clock_mono r hr (pySplit line) t k
        have hp := (hr.2.2.2 i).1
        exact ih ((mockWords r (pySplit line) t k).2.1 + r.pause i)
          (mockWords r (pySplit line) t k).2.2 (i + 1) (by linarith) s hmem

theorem joinSpace_length_ge_head (s : String) (l : List String) :
    s.length ≤ (joinSpace (s :: l)).length := by
  cases l with
  | nil => simp [joinSpace]
  | cons a l => simp [joinSpace, String.length_append]; omega

theorem str_ne_empty_of_pos {s : String} (h : 0 < s.length) : s ≠ "" := by
  intro he
  rw [he] at h
  simp at h

-- ---------------------------------------------------------------------------
-- Claim C8
-- ---------------------------------------------------------------------------

/-- C8: the synthetic transcription path never fails — `generateMockTranscript`
is a total function of the drawn values — and for every draw the code can
make (a scripted conversation and a line count `num_lines` with
`4 ≤ num_lines ≤ len(conversation)`, the range of `random.randint(4,
len(conversation))` at line 235) the result has status "completed", a
non-empty transcript, and exactly `num_lines` segments, hence at least 4
and at most the length of the selected script. -/
theorem mock_transcript_shape (r : MockRand) (conversation : List String)
    (num_lines : ℕ) (hconv : conversation ∈ MOCK_CONVERSATIONS)
    (h4 : 4 ≤ num_lines) (hlen : num_lines ≤ conversation.length) :
    (generateMockTranscript r conversation num_lines).segments.length = num_lines ∧
    4 ≤ (generateMockTranscript r conversation num_lines).segments.length ∧
    (generateMockTranscript r conversation num_lines).segments.length ≤
      conversation.length ∧
    (generateMockTranscript r conversation num_lines).transcript ≠ "" ∧
    (generateMockTranscript r conversation num_lines).status = "completed" := by
  have hseglen : (generateMockTranscript r conversation num_lines).segments.length
      = num_lines := by
    show (mockSegs r (conversation.take num_lines) 0 0 0).length = num_lines
    rw [mockSegs_length]
    exact List.length_take_of_le hlen
  refine ⟨hseglen, ?_, ?_, ?_, rfl⟩
  · rw [hseglen]; exact h4
  · rw [hseglen]; exact hlen
  · show joinSpace ((mockSegs r (conversation.take num_lines) 0 0 0).map
      Segment.text) ≠ ""
    rw [mockSegs_texts]
    cases hc : conversation.take num_lines with
    | nil =>
        exfalso
        have : (conversation.take num_lines).length = num_lines :=
          List.length_take_of_le hlen
        rw [hc] at this
        simp at this
        omega
    | cons line rest =>
        have hline : line ∈ conversation := by
          have : line ∈ conversation.take num_lines := by
            rw [hc]; exact List.mem_cons_self line rest
          exact List.mem_of_mem_take this
        have hpos : 0 < line.length :=
          ((corpus_facts conversation hconv).2 line hline).1
        apply str_ne_empty_of_pos
        calc 0 < line.length := hpos
          _ ≤ (joinSpace (line :: rest)).length := joinSpace_length_ge_head line rest

/-- A fixed stream of draws, each inside its documented range. -/
def constRand : MockRand :=
  ⟨fun _ => 1 / 5, fun _ => 1 / 20, fun _ => 9 / 10, fun _ => 1 / 2⟩

theorem constRand_valid : ValidRand constRand := by
  refine ⟨fun k => ?_, fun k => ?_, fun k => ?_, fun i => ?_⟩ <;>
    constructor <;> norm_num [constRand]

/-- The first scripted conversation. -/
def firstConversation : List String := MOCK_CONVERSATIONS.headD []

set_option maxRecDepth 100000 in
theorem mock_transcript_shape_witness :
    (generateMockTranscript constRand firstConversation 5).segments.length = 5 ∧
    4 ≤ (generateMockTranscript constRand firstConversation 5).segments.length ∧
    (generateMockTranscript constRand firstConversation 5).segments.length ≤
      firstConversation.length ∧
    (generateMockTranscript constRand firstConversation 5).transcript ≠ "" ∧
    (generateMockTranscript constRand firstConversation 5).status = "completed" :=
  mock_transcript_shape constRand firstConversation 5 (by decide) (by norm_num)
    (by decide)

/-- Every segment of the mock generator has a non-empty word list when every
line of the script splits into at least one word. -/
theorem mockSegs_words_ne_nil (r : MockRand) :
    ∀ (ls : List String) (t : ℚ) (k i : ℕ),
      (∀ line ∈ ls, pySplit line ≠ []) →
      ∀ s ∈ mockSegs r ls t k i, s.words ≠ [] := by
  intro ls
  induction ls with
  | nil => intro t k i _ s hs; simp [mockSegs] at hs
  | cons line rest ih =>
      intro t k i hsplit s hs
      rw [mockSegs_cons] at hs
      rcases List.mem_cons.mp hs with heq | hmem
      · subst heq
        show (mockWords r (pySplit line) t k).1 ≠ []
        exact mockWords_ne_nil r t k (hsplit line (List.mem_cons_self line rest))
      · exact ih _ _ _ (fun l hl => hsplit l (List.mem_cons_of_mem line hl)) s hmem

-- ---------------------------------------------------------------------------
-- Claim C10
-- ---------------------------------------------------------------------------

/-- C10: for every draw the generator can make (durations in [0.15, 0.45],
gaps in [0.02, 0.10], confidences in [0.85, 0.99], pauses in [0.3, 1.2],
a scripted conversation, `4 ≤ num_lines ≤ len(conversation)`), every word
of the synthetic result has `0 ≤ start < end` with `end - start` within
[0.15 - 0.001, 0.45 + 0.001] (the drawn duration up to two 3-decimal
roundings), and every word confidence, segment confidence and the overall
confidence lie in [0.85, 0.99] — strictly tighter than the data model's
[0, 1]. -/
theorem mock_numeric_bounds (r : MockRand) (conversation : List String)
    (num_lines : ℕ) (hr : ValidRand r) (hconv : conversation ∈ MOCK_CONVERSATIONS)
    (h4 : 4 ≤ num_lines) (hlen : num_lines ≤ conversation.length) :
    (∀ s ∈ (generateMockTranscript r conversation num_lines).segments,
      (∀ wt ∈ s.words,
        0 ≤ wt.start ∧ wt.start < wt.«end» ∧
        149 / 1000 ≤ wt.«end» - wt.start ∧ wt.«end» - wt.start ≤ 451 / 1000 ∧
        85 / 100 ≤ wt.confidence ∧ wt.confidence ≤ 99 / 100) ∧
      85 / 100 ≤ s.confidence ∧ s.confidence ≤ 99 / 100) ∧
    85 / 100 ≤ (generateMockTranscript r conversation num_lines).confidence ∧
    (generateMockTranscript r conversation num_lines).confidence ≤ 99 / 100 := by
  have hsplit : ∀ line ∈ conversation.take num_lines, pySplit line ≠ [] :=
    fun line hl =>
      ((corpus_facts conversation hconv).2 line (List.mem_of_mem_take hl)).2
  have hsegs : ∀ s ∈ (generateMockTranscript r conversation num_lines).segments,
      (∀ wt ∈ s.words,
        0 ≤ wt.start ∧ wt.start < wt.«end» ∧
        149 / 1000 ≤ wt.«end» - wt.start ∧ wt.«end» - wt.start ≤ 451 / 1000 ∧
        85 / 100 ≤ wt.confidence ∧ wt.confidence ≤ 99 / 100) ∧
      85 / 100 ≤ s.confidence ∧ s.confidence ≤ 99 / 100 := by
    intro s hs
    have hprops := mockSegs_seg_props r hr (conversation.take num_lines) 0 0 0
      le_rfl s hs
    have hwne := mockSegs_words_ne_nil r (conversation.take num_lines) 0 0 0
      hsplit s hs
    exact ⟨hprops.2.1, hprops.2.2 hwne⟩
  refine ⟨hsegs, ?_⟩
  have hne : (generateMockTranscript r conversation num_lines).segments ≠ [] := by
    intro hnil
    have := (mock_transcript_shape r conversation num_lines hconv h4 hlen).1
    rw [hnil] at this
    simp at this
    omega
  have hmapne : (generateMockTranscript r conversation num_lines).segments.map
      Segment.confidence ≠ [] := by simpa using hne
  have hbounds : ∀ x ∈ (generateMockTranscript r conversation num_lines).segments.map
      Segment.confidence, 85 / 100 ≤ x ∧ x ≤ 99 / 100 := by
    intro x hx
    rcases List.mem_map.mp hx with ⟨s, hsmem, hx'⟩
    rw [← hx']
    exact (hsegs s hsmem).2
  have hmean := mean_mem hmapne hbounds
  exact rnd4_conf_mem hmean.1 hmean.2

set_option maxRecDepth 100000 in
theorem mock_numeric_bounds_witness :
    85 / 100 ≤ (generateMockTranscript constRand firstConversation 5).confidence ∧
    (generateMockTranscript constRand firstConversation 5).confidence ≤ 99 / 100 :=
  (mock_numeric_bounds constRand firstConversation 5 constRand_valid (by decide)
    (by norm_num) (by decide)).2

-- ---------------------------------------------------------------------------
-- Lemmas about the external-path segmentation loop
-- ---------------------------------------------------------------------------

/-- Whether a segment satisfies the loop's closing condition (lines
391-395): its last word ends a sentence, or it holds 15 words. -/
def segClosed (s : Segment) : Bool :=
  sentence_end ((s.words.getLastD default).word) || decide (15 ≤ s.words.length)

theorem nemoSegLoop_cons (w : WordInfo) (ws : List WordInfo)
    (cur : List WordTimestamp) (parts : List String) (st : ℚ) :
    nemoSegLoop (w :: ws) cur parts st =
      if sentence_end w.word || decide (15 ≤ (cur ++ [mkWT w]).length) then
        ⟨rnd 3 (if cur.isEmpty then w.start else st), rnd 3 w.«end»,
         joinSpace (parts ++ [w.word]),
         rnd 4 (mean ((cur ++ [mkWT w]).map WordTimestamp.confidence)),
         cur ++ [mkWT w]⟩ ::
          nemoSegLoop ws [] [] (if cur.isEmpty then w.start else st)
      else
        nemoSegLoop ws (cur ++ [mkWT w]) (parts ++ [w.word])
          (if cur.isEmpty then w.start else st) := rfl

/-- Invariant-carrying characterisation of the segmentation loop.  With the
running segment shorter than 15 words, none of its words ending a
sentence, its stored word ends already 3-decimal values, and the running
raw start agreeing (after rounding) with its first stored word's start:
the emitted segments' word lists concatenate to the rounded input words;
every segment is non-empty, holds at most 15 words, starts at its first
word's start and ends at its last word's end, and no word before a
segment's last word ends a sentence; and every segment except possibly
the final one satisfies the closing condition. -/
theorem nemoSegLoop_props :
    ∀ (ws : List WordInfo) (cur : List WordTimestamp) (parts : List String)
      (st : ℚ),
      cur.length < 15 →
      (∀ wt ∈ cur, sentence_end wt.word = false) →
      (∀ wt ∈ cur, rnd 3 wt.«end» = wt.«end») →
      (cur ≠ [] → rnd 3 st = (cur.headD default).start) →
      ((List.map Segment.words (nemoSegLoop ws cur parts st)).flatten =
          cur ++ ws.map mkWT) ∧
      (∀ s ∈ nemoSegLoop ws cur parts st,
        s.words ≠ [] ∧ s.words.length ≤ 15 ∧
        s.start = (s.words.headD default).start ∧
        s.«end» = (s.words.getLastD default).«end» ∧
        (∀ j, j + 1 < s.words.length →
          sentence_end ((s.words.getD j default).word) = false)) ∧
      (∀ s ∈ (nemoSegLoop ws cur parts st).dropLast, segClosed s = true) := by
  intro ws
  induction ws with
  | nil =>
      intro cur parts st hlen hSE hrnd hst
      cases cur with
      | nil =>
          exact ⟨by simp [nemoSegLoop], by simp [nemoSegLoop], by simp [nemoSegLoop]⟩
      | cons c cur =>
          have hne : c :: cur ≠ [] := List.cons_ne_nil c cur
          refine ⟨by simp [nemoSegLoop], ?_, by simp [nemoSegLoop]⟩
          intro s hs
          rw [show nemoSegLoop [] (c :: cur) parts st =
            [⟨rnd 3 st, rnd 3 (((c :: cur).getLastD default).«end»), joinSpace parts,
              rnd 4 (mean ((c :: cur).map WordTimestamp.confidence)), c :: cur⟩]
            from rfl] at hs
          rcases List.mem_cons.mp hs with heq | hmem
          · subst heq
            refine ⟨hne, ?_, hst hne, ?_, ?_⟩
            · show (c :: cur).length ≤ 15
              omega
            · show rnd 3 (((c :: cur).getLastD default).«end») =
                ((c :: cur).getLastD default).«end»
              exact hrnd _ (getLastD_mem hne)
            · intro j hj
              have hj2 : j + 1 < (c :: cur).length := hj
              exact hSE _ (getD_mem_of_lt (by omega))
          · simp at hmem
  | cons w ws ih =>
      intro cur parts st hlen hSE hrnd hst
      have hlen' : (cur ++ [mkWT w]).length = cur.length + 1 := by simp
      have hrnd' : ∀ wt ∈ cur ++ [mkWT w], rnd 3 wt.«end» = wt.«end» := by
        intro wt hwt
        rcases List.mem_append.mp hwt with h | h
        · exact hrnd wt h
        · simp at h
          subst h
          exact rnd_idem 3 w.«end»
      have hst' : rnd 3 (if cur.isEmpty then w.start else st) =
          ((cur ++ [mkWT w]).headD default).start := by
        cases cur with
        | nil => rfl
        | cons c cur =>
            rw [headD_append_of_ne_nil _ (List.cons_ne_nil c cur)]
            simpa using hst (List.cons_ne_nil c cur)
      cases hcond : sentence_end w.word || decide (15 ≤ (cur ++ [mkWT w]).length) with
      | true =>
          have ihe := ih [] [] (if cur.isEmpty then w.start else st)
            (by simp) (by simp) (by simp) (fun h => absurd rfl h)
          rw [nemoSegLoop_cons, hcond, if_pos rfl]
          refine ⟨?_, ?_, ?_⟩
          · simp only [List.map_cons, List.flatten_cons]
            rw [ihe.1]
            simp
          · intro s hs
            rcases List.mem_cons.mp hs with heq | hmem
            · subst heq
              refine ⟨by simp, ?_, hst', ?_, ?_⟩
              · show (cur ++ [mkWT w]).length ≤ 15
                omega
              · show rnd 3 w.«end» = ((cur ++ [mkWT w]).getLastD default).«end»
                rw [getLastD_concat']
                rfl
              · intro j hj
                have hj2 : j + 1 < (cur ++ [mkWT w]).length := hj
                rw [hlen'] at hj2
                show sentence_end (((cur ++ [mkWT w]).getD j default).word) = false
                rw [getD_append_lt _ (by omega)]
                exact hSE _ (getD_mem_of_lt (by omega))
            · exact ihe.2.1 s hmem
          · intro s hs
            cases hL : nemoSegLoop ws [] [] (if cur.isEmpty then w.start else st) with
            | nil => rw [hL] at hs; simp at hs
            | cons seg2 L2 =>
                rw [hL, List.dropLast_cons₂] at hs
                rcases List.mem_cons.mp hs with heq | hmem
                · subst heq
                  show segClosed _ = true
                  unfold segClosed
                  rw [show Segment.words
                      ⟨rnd 3 (if cur.isEmpty then w.start else st), rnd 3 w.«end»,
                       joinSpace (parts ++ [w.word]),
                       rnd 4 (mean ((cur ++ [mkWT w]).map WordTimestamp.confidence)),
                       cur ++ [mkWT w]⟩ = cur ++ [mkWT w] from rfl]
                  rw [getLastD_concat']
                  exact hcond
                · have := ihe.2.2 s
                  rw [hL] at this
                  exact this hmem
      | false =>
          have hflags := Bool.or_eq_false_iff.mp hcond
          have hlt : (cur ++ [mkWT w]).length < 15 := by
            have := of_decide_eq_false hflags.2
            omega
          have hSE' : ∀ wt ∈ cur ++ [mkWT w], sentence_end wt.word = false := by
            intro wt hwt
            rcases List.mem_append.mp hwt with h | h
            · exact hSE wt h
            · simp at h
              subst h
              exact hflags.1
          have ihe := ih (cur ++ [mkWT w]) (parts ++ [w.word])
            (if cur.isEmpty then w.start else st) hlt hSE' hrnd' (fun _ => hst')
          rw [nemoSegLoop_cons, hcond, if_neg (by simp)]
          refine ⟨?_, ihe.2.1, ihe.2.2⟩
          rw [ihe.1]
          simp

-- ---------------------------------------------------------------------------
-- Claim C5
-- ---------------------------------------------------------------------------

/-- C5: the external-path segmentation accumulates the words in order into
consecutive segments (their word lists concatenate to the rounded input
sequence); a segment is closed exactly when its current word ends with
'.', '?' or '!' or it has just reached 15 words — so every non-final
segment satisfies the closing condition, no earlier position of any
segment triggers it (no interior word ends a sentence and every interior
position is below the 15-word cap) — and trailing words form one final
segment (the only one allowed not to satisfy the closing condition). -/
theorem nemo_segmentation_policy (ws : List WordInfo) :
    ((nemoSegments ws).map Segment.words).flatten = ws.map mkWT ∧
    (∀ s ∈ nemoSegments ws,
      s.words ≠ [] ∧ s.words.length ≤ 15 ∧
      (∀ j, j + 1 < s.words.length →
        sentence_end ((s.words.getD j default).word) = false ∧ j + 1 < 15)) ∧
    (∀ s ∈ (nemoSegments ws).dropLast, segClosed s = true) := by
  have h := nemoSegLoop_props ws [] [] 0 (by norm_num) (by simp) (by simp)
    (fun hc => absurd rfl hc)
  refine ⟨h.1, ?_, h.2.2⟩
  intro s hs
  obtain ⟨hne, hlen, _, _, hint⟩ := h.2.1 s hs
  exact ⟨hne, hlen, fun j hj => ⟨hint j hj, by omega⟩⟩

/-- A one-word engine output whose word ends a sentence. -/
def nemoWitnessWords : List WordInfo := [⟨"Hi.", 0, 1, 9 / 10⟩]

theorem nemoWitnessWords_segments_ne_nil :
    nemoSegments nemoWitnessWords ≠ [] := by
  unfold nemoSegments nemoWitnessWords
  rw [nemoSegLoop_cons, if_pos (by decide)]
  exact List.cons_ne_nil _ _

theorem nemo_segmentation_policy_witness :
    ((nemoSegments nemoWitnessWords).headD default).words.length ≤ 15 :=
  ((nemo_segmentation_policy nemoWitnessWords).2.1 _
    (headD_mem nemoWitnessWords_segments_ne_nil)).2.1

-- ---------------------------------------------------------------------------
-- Claim C1
-- ---------------------------------------------------------------------------

/-- C1 (amended): every segment the external-path segmentation produces has
a non-empty word list, starts at its first word's start and ends at its
last word's end; every synthetic-path segment with a non-empty word list
starts at its first word's start, but its end strictly exceeds its last
word's end, because the clock read at the segment boundary (line 263 of
the source) still contains the inter-word gap drawn after the last word. -/
theorem segment_word_bounds :
    (∀ ws : List WordInfo, ∀ s ∈ nemoSegments ws,
      s.words ≠ [] ∧
      s.start = (s.words.headD default).start ∧
      s.«end» = (s.words.getLastD default).«end») ∧
    (∀ (r : MockRand) (conversation : List String) (num_lines : ℕ),
      ValidRand r →
      ∀ s ∈ (generateMockTranscript r conversation num_lines).segments,
        s.words ≠ [] →
          s.start = (s.words.headD default).start ∧
          (s.words.getLastD default).«end» < s.«end») := by
  constructor
  · intro ws s hs
    have h := nemoSegLoop_props ws [] [] 0 (by norm_num) (by simp) (by simp)
      (fun hc => absurd rfl hc)
    obtain ⟨hne, _, hstart, hend, _⟩ := h.2.1 s hs
    exact ⟨hne, hstart, hend⟩
  · intro r conversation num_lines hr s hs hw
    have h := mockSegs_seg_props r hr (conversation.take num_lines) 0 0 0
      le_rfl s hs
    have hb := h.1 hw
    exact ⟨hb.1, by linarith [hb.2]⟩

/-- The first segment the synthetic generator produces from the first
scripted conversation with 4 lines and the fixed draw stream. -/
def mockCexSeg : Segment :=
  (generateMockTranscript constRand firstConversation 4).segments.headD default

set_option maxRecDepth 100000 in
theorem mockCexSeg_mem :
    mockCexSeg ∈ (generateMockTranscript constRand firstConversation 4).segments := by
  apply headD_mem
  intro hnil
  have hlen : (generateMockTranscript constRand firstConversation 4).segments.length
      = (firstConversation.take 4).length := by
    show (mockSegs constRand (firstConversation.take 4) 0 0 0).length = _
    rw [mockSegs_length]
  rw [hnil] at hlen
  have : (firstConversation.take 4).length = 4 := by decide
  rw [this] at hlen
  simp at hlen

set_option maxRecDepth 100000 in
/-- C1 counterexample: a concrete synthetic segment with a non-empty word
list whose `end` differs from its last word's `end` (the claim asserts
they are equal on both transcription paths). -/
theorem segment_word_bounds_cex :
    mockCexSeg.words ≠ [] ∧
    mockCexSeg.«end» ≠ (mockCexSeg.words.getLastD default).«end» := by
  have hsplit : ∀ line ∈ firstConversation.take 4, pySplit line ≠ [] :=
    fun line hl =>
      ((corpus_facts firstConversation (by decide)).2 line
        (List.mem_of_mem_take hl)).2
  have hwne := mockSegs_words_ne_nil constRand (firstConversation.take 4) 0 0 0
    hsplit mockCexSeg mockCexSeg_mem
  refine ⟨hwne, ?_⟩
  have h := mockSegs_seg_props constRand constRand_valid
    (firstConversation.take 4) 0 0 0 le_rfl mockCexSeg mockCexSeg_mem
  have hb := (h.1 hwne).2
  intro heq
  rw [heq] at hb
  linarith

theorem segment_word_bounds_witness :
    ((nemoSegments nemoWitnessWords).headD default).words ≠ [] :=
  (segment_word_bounds.1 nemoWitnessWords _
    (headD_mem nemoWitnessWords_segments_ne_nil)).1

-- ---------------------------------------------------------------------------
-- Claim C9
-- ---------------------------------------------------------------------------

theorem rnd4_nine_tenths : rnd 4 (mean [(9 : ℚ) / 10]) = 9 / 10 := by
  norm_num [mean, List.sum_cons, List.sum_nil, rnd]

theorem rnd3_zero : rnd 3 (0 : ℚ) = 0 := by norm_num [rnd]

/-- When the engine yields no word timing but non-empty text, the assembled
segments are exactly the single degraded `[0,0]` segment (lines 428-438). -/
theorem nemoResult_degraded_segments (h : NemoHyp) (hw : h.words = [])
    (ht : h.text ≠ "") :
    (nemoResult h).segments = [⟨0, 0, h.text, 9 / 10, []⟩] := by
  have hs0 : nemoSegments h.words = [] := by rw [hw]; rfl
  show (if nemoSegments h.words = [] ∧ h.text ≠ "" then
      [(⟨0, 0, h.text, 9 / 10, []⟩ : Segment)] else nemoSegments h.words) = _
  rw [if_pos ⟨hs0, ht⟩]

/-- C9: when the engine yields text but no word-level timing at all, the
result holds exactly one segment spanning [0,0] with that text, confidence
0.9 and no words; the overall confidence is 0.9, the duration 0; and this
is returned as a valid `.ok` result, not an error. -/
theorem nemo_degraded_single_segment (h : NemoHyp) (hw : h.words = [])
    (ht : h.text ≠ "") :
    (nemoResult h).segments = [⟨0, 0, h.text, 9 / 10, []⟩] ∧
    (nemoResult h).transcript = h.text ∧
    (nemoResult h).confidence = 9 / 10 ∧
    (nemoResult h).duration_seconds = 0 ∧
    (∀ (engine : String → Option NemoHyp) (audio_path : String),
      engine (enginePathOf audio_path) = some h →
      transcribeWithNemo engine audio_path = .ok (nemoResult h)) := by
  have hs0 : nemoSegments h.words = [] := by rw [hw]; rfl
  have hseg : (if nemoSegments h.words = [] ∧ h.text ≠ "" then
      [(⟨0, 0, h.text, 9 / 10, []⟩ : Segment)] else nemoSegments h.words) =
      [⟨0, 0, h.text, 9 / 10, []⟩] := by rw [if_pos ⟨hs0, ht⟩]
  refine ⟨nemoResult_degraded_segments h hw ht, rfl, ?_, ?_, ?_⟩
  · show (if (if nemoSegments h.words = [] ∧ h.text ≠ "" then
          [(⟨0, 0, h.text, 9 / 10, []⟩ : Segment)] else nemoSegments h.words) = []
        then (0 : ℚ)
        else rnd 4 (mean ((if nemoSegments h.words = [] ∧ h.text ≠ "" then
          [(⟨0, 0, h.text, 9 / 10, []⟩ : Segment)] else
            nemoSegments h.words).map Segment.confidence))) = 9 / 10
    rw [hseg, if_neg (List.cons_ne_nil _ _)]
    exact rnd4_nine_tenths
  · show rnd 3 (lastEndQ (if nemoSegments h.words = [] ∧ h.text ≠ "" then
        [(⟨0, 0, h.text, 9 / 10, []⟩ : Segment)] else nemoSegments h.words)) = 0
    rw [hseg]
    exact rnd3_zero
  · intro engine audio_path heng
    unfold transcribeWithNemo
    rw [heng]

theorem nemo_degraded_single_segment_witness :
    (nemoResult ⟨"hello world", []⟩).segments =
      [⟨0, 0, "hello world", 9 / 10, []⟩] ∧
    (nemoResult ⟨"hello world", []⟩).transcript = "hello world" ∧
    transcribeWithNemo (fun _ => some ⟨"hello world", []⟩) "a.wav" =
      .ok (nemoResult ⟨"hello world", []⟩) := by
  have h := nemo_degraded_single_segment ⟨"hello world", []⟩ rfl (by decide)
  exact ⟨h.1, h.2.1, h.2.2.2.2 (fun _ => some ⟨"hello world", []⟩) "a.wav" rfl⟩

-- ---------------------------------------------------------------------------
-- Claim C2
-- ---------------------------------------------------------------------------

/-- C2 (amended): the transcript equals the space-joined segment texts for
every synthetic result (the code builds it that way, line 281) and for the
degraded no-timing external result (its single segment holds the whole
text); on the external path the transcript is always the engine's full
text (line 357/448), which the code never reconciles with the segment
texts built from the word timings — so the equality holds there only when
the engine's text happens to equal the joined word strings. -/
theorem transcript_join_amended :
    (∀ (r : MockRand) (conversation : List String) (num_lines : ℕ),
      (generateMockTranscript r conversation num_lines).transcript =
        joinSpace ((generateMockTranscript r conversation num_lines).segments.map
          Segment.text)) ∧
    (∀ h : NemoHyp, h.words = [] → h.text ≠ "" →
      (nemoResult h).transcript =
        joinSpace ((nemoResult h).segments.map Segment.text)) ∧
    (∀ h : NemoHyp, (nemoResult h).transcript = h.text) := by
  refine ⟨fun r conversation num_lines => rfl, ?_, fun h => rfl⟩
  intro h hw ht
  have hres := nemoResult_degraded_segments h hw ht
  have htr : (nemoResult h).transcript = h.text := rfl
  rw [htr, hres]
  rfl

theorem transcript_join_witness :
    (nemoResult ⟨"z", []⟩).transcript =
      joinSpace ((nemoResult ⟨"z", []⟩).segments.map Segment.text) :=
  transcript_join_amended.2.1 ⟨"z", []⟩ rfl (by decide)

/-- The external-path result for an engine hypothesis whose full text "x"
differs from its single timed word "y". -/
def cexNemoResult : TranscriptionResult := nemoResult ⟨"x", [⟨"y", 0, 1, 9 / 10⟩]⟩

/-- C2 counterexample: a concrete external-path result whose transcript is
the engine's text "x" while the space-joined segment texts give "y". -/
theorem transcript_join_cex :
    cexNemoResult.transcript ≠
      joinSpace (cexNemoResult.segments.map Segment.text) := by
  have hns : nemoSegments [⟨"y", 0, 1, 9 / 10⟩] =
      nemoSegLoop [] [mkWT ⟨"y", 0, 1, 9 / 10⟩] ["y"] 0 := by
    rw [nemoSegments, nemoSegLoop_cons, if_neg (by decide)]
    rfl
  have hbase : nemoSegLoop [] [mkWT ⟨"y", 0, 1, 9 / 10⟩] ["y"] 0 =
      [⟨rnd 3 0, rnd 3 (([mkWT ⟨"y", 0, 1, 9 / 10⟩].getLastD default).«end»),
        joinSpace ["y"],
        rnd 4 (mean ([mkWT ⟨"y", 0, 1, 9 / 10⟩].map WordTimestamp.confidence)),
        [mkWT ⟨"y", 0, 1, 9 / 10⟩]⟩] := rfl
  have hne : nemoSegments [⟨"y", 0, 1, 9 / 10⟩] ≠ [] := by
    rw [hns, hbase]
    exact List.cons_ne_nil _ _
  have hseg : cexNemoResult.segments = nemoSegments [⟨"y", 0, 1, 9 / 10⟩] := by
    show (if nemoSegments [⟨"y", 0, 1, 9 / 10⟩] = [] ∧ ("x" : String) ≠ "" then
        [(⟨0, 0, "x", 9 / 10, []⟩ : Segment)]
      else nemoSegments [⟨"y", 0, 1, 9 / 10⟩]) = _
    rw [if_neg]
    intro hand
    exact hne hand.1
  have htexts : cexNemoResult.segments.map Segment.text = ["y"] := by
    rw [hseg, hns, hbase]
    rfl
  have htr : cexNemoResult.transcript = "x" := rfl
  rw [htr, htexts]
  decide

-- ---------------------------------------------------------------------------
-- Claim C6
-- ---------------------------------------------------------------------------

/-- C6: at process shutdown every pending or processing job is transitioned
to failed with the fixed error string "Server shutting down" and a
non-null completion timestamp, while jobs already terminal are left
unchanged; the handler maps this action over the whole job table. -/
theorem shutdown_fails_active_jobs (t : ℕ) (j : JobInfo) :
    ((j.status = .pending ∨ j.status = .processing) →
      (shutdownJob t j).status = .failed ∧
      (shutdownJob t j).error = some "Server shutting down" ∧
      (shutdownJob t j).completed_at = some t ∧
      (shutdownJob t j).completed_at ≠ none) ∧
    (isTerminal j.status = true → shutdownJob t j = j) ∧
    shutdownAll t [j] = [shutdownJob t j] := by
  refine ⟨?_, ?_, rfl⟩
  · intro hact
    unfold shutdownJob
    rw [if_pos hact]
    exact ⟨rfl, rfl, rfl, by simp⟩
  · intro hterm
    cases hst : j.status with
    | pending => rw [isTerminal, hst] at hterm; simp at hterm
    | processing => rw [isTerminal, hst] at hterm; simp at hterm
    | completed => unfold shutdownJob; rw [if_neg (by simp [hst])]
    | failed => unfold shutdownJob; rw [if_neg (by simp [hst])]

theorem shutdown_fails_active_jobs_witness :
    (shutdownJob 5 (newJob "j1" "r1" 0)).status = .failed ∧
    (shutdownJob 5 (newJob "j1" "r1" 0)).error = some "Server shutting down" ∧
    (shutdownJob 5 (newJob "j1" "r1" 0)).completed_at = some 5 ∧
    (shutdownJob 5 (newJob "j1" "r1" 0)).completed_at ≠ none :=
  (shutdown_fails_active_jobs 5 (newJob "j1" "r1" 0)).1 (Or.inl rfl)

-- ---------------------------------------------------------------------------
-- Claim C4
-- ---------------------------------------------------------------------------

/-- C4 (amended): any failure in the background pipeline transitions the job
to failed, stores the error description and stamps a completion time
(freezing the progress value); the `finally` cleanup always removes the
downloaded audio file, and the working area itself is removed exactly when
no converted file was produced — in external-engine mode on a convertible
format (.opus/.ogg/.webm) the converted wav is never removed and the
directory removal fails, leaving both behind. -/
theorem worker_failure_and_cleanup :
    (∀ (j : JobInfo) (msg : String) (t : ℕ),
      (applyEvent j (.fail msg t)).status = .failed ∧
      (applyEvent j (.fail msg t)).error = some msg ∧
      (applyEvent j (.fail msg t)).completed_at = some t ∧
      (applyEvent j (.fail msg t)).progress = j.progress) ∧
    (∀ ext ∈ allowedExtensions, ∀ (useNemo : Bool) (outcome : PipelineOutcome),
      (workerCleanup useNemo ext outcome).1 =
        (if useNemo && reachesConversion outcome && needsConvert (audioName ext)
         then [wavName ext] else []) ∧
      ((workerCleanup useNemo ext outcome).2 = true ↔
        (workerCleanup useNemo ext outcome).1 = [])) := by
  constructor
  · intro j msg t
    exact ⟨rfl, rfl, rfl, rfl⟩
  · intro ext hext useNemo outcome
    fin_cases hext <;> cases useNemo <;> cases outcome <;>
      exact ⟨by decide, by decide⟩

/-- C4 counterexample: an external-mode job downloading `audio.opus` that
completes successfully leaves the converted `audio.wav` behind, and the
working directory cannot be removed — cleanup is not unconditional. -/
theorem worker_cleanup_cex :
    (workerCleanup true ".opus" .success).1 = ["audio.wav"] ∧
    (workerCleanup true ".opus" .success).2 = false := by decide

theorem worker_failure_and_cleanup_witness :
    (workerCleanup true ".wav" PipelineOutcome.success).1 =
      (if true && reachesConversion .success && needsConvert (audioName ".wav")
       then [wavName ".wav"] else []) ∧
    ((workerCleanup true ".wav" PipelineOutcome.success).2 = true ↔
      (workerCleanup true ".wav" PipelineOutcome.success).1 = []) :=
  worker_failure_and_cleanup.2 ".wav" (by decide) true .success

-- ---------------------------------------------------------------------------
-- Claim C7
-- ---------------------------------------------------------------------------

/-- Modelled from the spec: the engine's required native format is WAV (the
spec names a fixed sample rate and mono reduction); this predicate
expresses the spec's phrase "the source is already in the native format",
for comparison with the source's conversion condition of line 332. -/
def isNativeWav (audio_path : String) : Bool :=
  strEndsWith (strLower audio_path) ".wav"

theorem listEndsWith_of_le {l p q : List Char} (hp : listEndsWith l p = true)
    (hq : listEndsWith l q = true) (hle : p.length ≤ q.length) :
    listEndsWith q p = true := by
  unfold listEndsWith at *
  simp only [Bool.and_eq_true, decide_eq_true_eq] at hp hq ⊢
  obtain ⟨hp1, hp2⟩ := hp
  obtain ⟨hq1, hq2⟩ := hq
  refine ⟨hle, ?_⟩
  have hq3 : q.drop (q.length - p.length) =
      (l.drop (l.length - q.length)).drop (q.length - p.length) := by rw [hq2]
  rw [hq3, List.drop_drop]
  have harith : l.length - q.length + (q.length - p.length) =
      l.length - p.length := by omega
  rw [harith, hp2]

/-- C7 (amended): the conversion step runs exactly for sources whose
lowercased path ends in `.opus`, `.ogg` or `.webm` — for those the engine
is invoked on the converted wav path and the source was indeed not native —
and a source already in the native `.wav` format always skips conversion;
but the spec's biconditional fails in the other direction: a source can be
non-native and still skip conversion (see the `.mp3` counterexample). -/
theorem nemo_conversion_condition (audio_path : String) :
    (isNativeWav audio_path = true →
      needsConvert audio_path = false ∧ enginePathOf audio_path = audio_path) ∧
    (needsConvert audio_path = true →
      enginePathOf audio_path = convertOpusToWav audio_path ∧
      isNativeWav audio_path = false) ∧
    (needsConvert audio_path = false → enginePathOf audio_path = audio_path) := by
  have hw : isNativeWav audio_path = true → needsConvert audio_path = false := by
    intro hnat
    unfold isNativeWav strEndsWith at hnat
    unfold needsConvert strEndsWith
    have hopus : listEndsWith (strLower audio_path).data ".opus".data = false := by
      cases hx : listEndsWith (strLower audio_path).data ".opus".data
      · rfl
      · have := listEndsWith_of_le hnat hx (by decide)
        exact absurd this (by decide)
    have hogg : listEndsWith (strLower audio_path).data ".ogg".data = false := by
      cases hx : listEndsWith (strLower audio_path).data ".ogg".data
      · rfl
      · have := listEndsWith_of_le hnat hx (by decide)
        exact absurd this (by decide)
    have hwebm : listEndsWith (strLower audio_path).data ".webm".data = false := by
      cases hx : listEndsWith (strLower audio_path).data ".webm".data
      · rfl
      · have := listEndsWith_of_le hnat hx (by decide)
        exact absurd this (by decide)
    rw [hopus, hogg, hwebm]
    rfl
  refine ⟨fun hnat => ⟨hw hnat, by simp [enginePathOf, hw hnat]⟩, ?_,
    fun h => by simp [enginePathOf, h]⟩
  intro hconv
  refine ⟨by simp [enginePathOf, hconv], ?_⟩
  cases hnat : isNativeWav audio_path
  · rfl
  · rw [hw hnat] at hconv
    exact absurd hconv (by simp)

/-- C7 counterexample: `audio.mp3` is not in the native format, yet the
conversion step is skipped and the engine is invoked on the raw path —
refuting "a format-conversion step is performed for every input whose
format is not the native format". -/
theorem nemo_conversion_condition_cex :
    isNativeWav "audio.mp3" = false ∧ needsConvert "audio.mp3" = false ∧
    enginePathOf "audio.mp3" = "audio.mp3" := by
  refine ⟨by decide, by decide, ?_⟩
  simp [enginePathOf, show needsConvert "audio.mp3" = false from by decide]

theorem nemo_conversion_condition_witness :
    enginePathOf "x.opus" = convertOpusToWav "x.opus" ∧
    isNativeWav "x.opus" = false :=
  (nemo_conversion_condition "x.opus").2.1 (by decide)

-- ---------------------------------------------------------------------------
-- Claim C3
-- ---------------------------------------------------------------------------

/-- C3: along every observable execution of a job — any prefix of the
worker's event sequence (success, or failure at each stage), optionally
terminated by the shutdown handler — the observed states are pairwise
consistent: progress never decreases, and once a read observes a terminal
status (completed or failed) every later read observes the same status and
the same result and error values. -/
theorem job_state_monotone (jid rid : String) (now : ℕ)
    (res : TranscriptionResult) (msg : String) (t tShut : ℕ) :
    ∀ evs ∈ jobExecutions res msg t tShut,
      (runStates (newJob jid rid now) evs).Pairwise obsOk := by
  intro evs hevs
  simp only [jobExecutions, workerTraces, List.map_cons, List.map_nil,
    List.nil_append, List.cons_append, List.mem_append, List.mem_cons,
    List.not_mem_nil, or_false] at hevs
  rcases hevs with h | h | h | h | h | h | h | h | h | h | h | h <;> subst h <;>
    (simp [runStates, applyEvent, newJob, shutdownJob, List.pairwise_cons,
      obsOk, isTerminal] <;> norm_num)

theorem job_state_monotone_witness :
    (runStates (newJob "j1" "r1" 0) [WorkerEvent.startProcessing]).Pairwise obsOk :=
  job_state_monotone "j1" "r1" 0 default "boom" 1 2 [WorkerEvent.startProcessing]
    (by simp [jobExecutions, workerTraces])
